import Mathlib

/-!
Verification of the GST computation and invoice-classification core of a
small-business billing backend.  JavaScript numbers are modelled as exact
rationals, strings as Lean strings, nullable values as Option, and the
mongoose pre-save hook / controllers as pure state-passing functions.
-/

/-- Result of the GST splitter: the { cgst, sgst, igst } object. -/
structure GSTSplit where
  cgst : ℚ
  sgst : ℚ
  igst : ℚ
  deriving DecidableEq, Repr

/-- gstCalculator.calculateGST: split tax into CGST+SGST (intrastate) or
IGST (interstate) based on exact string equality of the two states. -/
def calculateGST (taxableAmount gstRate : ℚ) (businessState customerState : String) :
    GSTSplit :=
  let gstAmount := taxableAmount * gstRate / 100
  if businessState = customerState then
    { cgst := gstAmount / 2, sgst := gstAmount / 2, igst := 0 }
  else
    { cgst := 0, sgst := 0, igst := gstAmount }

/-- The statutory invoice classification. -/
inductive InvoiceType where
  | B2B
  | B2CS
  | B2CL
  deriving DecidableEq, Repr

/-- JavaScript truthiness of an optional string: null/undefined and the
empty string are falsy, every other string is truthy. -/
def jsTruthy : Option String → Bool
  | none => false
  | some s => s != ""

/-- JavaScript String.prototype.trim: strip leading and trailing
whitespace from the character sequence. -/
def jsTrim (s : String) : String :=
  String.mk (((s.data.dropWhile Char.isWhitespace).reverse.dropWhile
    Char.isWhitespace).reverse)

/-- gstCalculator.determineInvoiceType: B2B when the gstin is truthy and
trims to a non-empty string; otherwise B2CL for an interstate sale of
amount strictly above 250000; otherwise B2CS. -/
def determineInvoiceType (gstin : Option String) (businessState customerState : String)
    (amount : ℚ) : InvoiceType :=
  if jsTruthy gstin && (jsTrim (gstin.getD "") != "") then
    InvoiceType.B2B
  else if businessState ≠ customerState ∧ amount > 250000 then
    InvoiceType.B2CL
  else
    InvoiceType.B2CS

/-- C1: for every taxableAmount, gstRate and pair of states, calculateGST
returns cgst = sgst = (taxableAmount*gstRate/100)/2 and igst = 0 when the
states are exactly equal, and cgst = sgst = 0, igst = taxableAmount*gstRate/100
when they differ, with no rounding applied. -/
theorem calculateGST_split_spec (t r : ℚ) (bs cs : String) :
    calculateGST t r bs cs =
      if bs = cs then
        { cgst := (t * r / 100) / 2, sgst := (t * r / 100) / 2, igst := 0 }
      else
        { cgst := 0, sgst := 0, igst := t * r / 100 } := by
  unfold calculateGST
  split <;> rfl

/-- The empty string trims to itself. -/
theorem trim_empty_string : jsTrim "" = "" := by decide

/-- C2: determineInvoiceType returns B2B exactly when the gstin is present
and non-blank; otherwise B2CL exactly when the states differ and the amount
is strictly greater than 250000; otherwise B2CS (so an interstate sale at
exactly 250000 is B2CS, and an intrastate sale is B2CS for every amount). -/
theorem determineInvoiceType_spec (gstin : Option String) (bs cs : String) (amount : ℚ) :
    determineInvoiceType gstin bs cs amount =
      if jsTrim (gstin.getD "") ≠ "" then InvoiceType.B2B
      else if bs ≠ cs ∧ amount > 250000 then InvoiceType.B2CL
      else InvoiceType.B2CS := by
  unfold determineInvoiceType jsTruthy
  cases gstin with
  | none => simp [trim_empty_string]
  | some s =>
    by_cases hs : s = ""
    · subst hs; simp [trim_empty_string]
    · by_cases ht : jsTrim s = "" <;> simp [hs, ht]

/-- C9: the splitter's triple always satisfies
cgst + sgst + igst = taxableAmount*gstRate/100, cgst = sgst, and either
igst = 0 or cgst = sgst = 0: total tax is invariant, only the split differs. -/
theorem calculateGST_total_invariant (t r : ℚ) (bs cs : String) :
    (calculateGST t r bs cs).cgst + (calculateGST t r bs cs).sgst
        + (calculateGST t r bs cs).igst = t * r / 100 ∧
    (calculateGST t r bs cs).cgst = (calculateGST t r bs cs).sgst ∧
    ((calculateGST t r bs cs).igst = 0 ∨
      ((calculateGST t r bs cs).cgst = 0 ∧ (calculateGST t r bs cs).sgst = 0)) := by
  unfold calculateGST
  by_cases h : bs = cs <;> refine ⟨?_, ?_, ?_⟩ <;> simp [h]

/-- A raw line item from the invoice-creation payload. -/
structure RawItem where
  productName : String
  hsnCode : String
  description : Option String
  quantity : ℚ
  unit : String
  rate : ℚ
  gstRate : ℚ
  discount : Option ℚ
  deriving DecidableEq, Repr

/-- A processed line item as stored on the invoice document. -/
structure ProcessedItem where
  productName : String
  hsnCode : String
  description : String
  quantity : ℚ
  unit : String
  rate : ℚ
  gstRate : ℚ
  discount : ℚ
  taxableAmount : ℚ
  cgst : ℚ
  sgst : ℚ
  igst : ℚ
  totalAmount : ℚ
  deriving DecidableEq, Repr

/-- createInvoice, customer state fallback: customerDetails.state falls back
to the business state when absent or empty (JavaScript or-default). -/
def resolveCustomerState (customerState : Option String) (businessState : String) : String :=
  match customerState with
  | none => businessState
  | some s => if s = "" then businessState else s

/-- createInvoice, per-item processing: taxable amount after discount, the
GST split from calculateGST, and the item total. -/
def processItem (businessState customerState : String) (item : RawItem) : ProcessedItem :=
  let itemSubtotal := item.quantity * item.rate
  let itemDiscount := item.discount.getD 0
  let taxableAmount := itemSubtotal - itemDiscount
  let gstAmount := calculateGST taxableAmount item.gstRate businessState customerState
  { productName := item.productName
    hsnCode := item.hsnCode
    description := item.description.getD ""
    quantity := item.quantity
    unit := item.unit
    rate := item.rate
    gstRate := item.gstRate
    discount := itemDiscount
    taxableAmount := taxableAmount
    cgst := gstAmount.cgst
    sgst := gstAmount.sgst
    igst := gstAmount.igst
    totalAmount := taxableAmount + gstAmount.cgst + gstAmount.sgst + gstAmount.igst }

/-- The running invoice-level accumulators of createInvoice. -/
structure InvoiceTotals where
  subtotal : ℚ
  totalCGST : ℚ
  totalSGST : ℚ
  totalIGST : ℚ
  totalDiscount : ℚ
  deriving DecidableEq, Repr

/-- One step of the accumulation performed inside the items.map closure. -/
def accumulateItem (businessState customerState : String) (acc : InvoiceTotals)
    (item : RawItem) : InvoiceTotals :=
  let itemSubtotal := item.quantity * item.rate
  let itemDiscount := item.discount.getD 0
  let taxableAmount := itemSubtotal - itemDiscount
  let gstAmount := calculateGST taxableAmount item.gstRate businessState customerState
  { subtotal := acc.subtotal + itemSubtotal
    totalCGST := acc.totalCGST + gstAmount.cgst
    totalSGST := acc.totalSGST + gstAmount.sgst
    totalIGST := acc.totalIGST + gstAmount.igst
    totalDiscount := acc.totalDiscount + itemDiscount }

/-- createInvoice: the invoice-level totals after the items.map pass. -/
def invoiceTotals (businessState customerState : String) (items : List RawItem) :
    InvoiceTotals :=
  items.foldl (accumulateItem businessState customerState)
    { subtotal := 0, totalCGST := 0, totalSGST := 0, totalIGST := 0, totalDiscount := 0 }

/-- createInvoice: grandTotal = subtotal - totalDiscount + CGST + SGST + IGST. -/
def invoiceGrandTotal (businessState customerState : String) (items : List RawItem) : ℚ :=
  let t := invoiceTotals businessState customerState items
  t.subtotal - t.totalDiscount + t.totalCGST + t.totalSGST + t.totalIGST

/-- createInvoice: the processed item list stored on the invoice. -/
def processedItems (businessState customerState : String) (items : List RawItem) :
    List ProcessedItem :=
  items.map (processItem businessState customerState)

/-- The foldl accumulation adds, componentwise, the per-item contributions
to the initial accumulator. -/
theorem invoiceTotals_foldl (bs cs : String) (items : List RawItem) (acc : InvoiceTotals) :
    (items.foldl (accumulateItem bs cs) acc).subtotal
        = acc.subtotal + (items.map (fun i => i.quantity * i.rate)).sum ∧
    (items.foldl (accumulateItem bs cs) acc).totalDiscount
        = acc.totalDiscount + (items.map (fun i => i.discount.getD 0)).sum ∧
    (items.foldl (accumulateItem bs cs) acc).totalCGST
        = acc.totalCGST + (items.map (fun i => (processItem bs cs i).cgst)).sum ∧
    (items.foldl (accumulateItem bs cs) acc).totalSGST
        = acc.totalSGST + (items.map (fun i => (processItem bs cs i).sgst)).sum ∧
    (items.foldl (accumulateItem bs cs) acc).totalIGST
        = acc.totalIGST + (items.map (fun i => (processItem bs cs i).igst)).sum := by
  induction items generalizing acc with
  | nil => simp
  | cons hd tl ih =>
    obtain ⟨h1, h2, h3, h4, h5⟩ := ih (accumulateItem bs cs acc hd)
    refine ⟨?_, ?_, ?_, ?_, ?_⟩
    · simp only [List.foldl_cons, List.map_cons, List.sum_cons, h1]
      simp [accumulateItem]; ring
    · simp only [List.foldl_cons, List.map_cons, List.sum_cons, h2]
      simp [accumulateItem]; ring
    · simp only [List.foldl_cons, List.map_cons, List.sum_cons, h3]
      simp [accumulateItem, processItem]; ring
    · simp only [List.foldl_cons, List.map_cons, List.sum_cons, h4]
      simp [accumulateItem, processItem]; ring
    · simp only [List.foldl_cons, List.map_cons, List.sum_cons, h5]
      simp [accumulateItem, processItem]; ring

/-- C3: for every non-empty item list, each processed item has
taxableAmount = quantity*rate - discount (discount defaulting to 0), the tax
triple from the GST splitter, and totalAmount = taxableAmount+cgst+sgst+igst;
and the invoice-level subtotal, totalDiscount, totalCGST/SGST/IGST are the
corresponding sums, with grandTotal = subtotal - totalDiscount + taxes. -/
theorem createInvoice_totals_spec (bs cs : String) (items : List RawItem)
    (hne : items ≠ []) :
    (∀ item ∈ items,
      (processItem bs cs item).taxableAmount
          = item.quantity * item.rate - item.discount.getD 0 ∧
      (processItem bs cs item).cgst
          = (calculateGST (item.quantity * item.rate - item.discount.getD 0)
              item.gstRate bs cs).cgst ∧
      (processItem bs cs item).sgst
          = (calculateGST (item.quantity * item.rate - item.discount.getD 0)
              item.gstRate bs cs).sgst ∧
      (processItem bs cs item).igst
          = (calculateGST (item.quantity * item.rate - item.discount.getD 0)
              item.gstRate bs cs).igst ∧
      (processItem bs cs item).totalAmount
          = (processItem bs cs item).taxableAmount + (processItem bs cs item).cgst
              + (processItem bs cs item).sgst + (processItem bs cs item).igst) ∧
    (invoiceTotals bs cs items).subtotal
        = (items.map (fun i => i.quantity * i.rate)).sum ∧
    (invoiceTotals bs cs items).totalDiscount
        = (items.map (fun i => i.discount.getD 0)).sum ∧
    (invoiceTotals bs cs items).totalCGST
        = (items.map (fun i => (processItem bs cs i).cgst)).sum ∧
    (invoiceTotals bs cs items).totalSGST
        = (items.map (fun i => (processItem bs cs i).sgst)).sum ∧
    (invoiceTotals bs cs items).totalIGST
        = (items.map (fun i => (processItem bs cs i).igst)).sum ∧
    invoiceGrandTotal bs cs items
        = (invoiceTotals bs cs items).subtotal
            - (invoiceTotals bs cs items).totalDiscount
            + (invoiceTotals bs cs items).totalCGST
            + (invoiceTotals bs cs items).totalSGST
            + (invoiceTotals bs cs items).totalIGST := by
  obtain ⟨h1, h2, h3, h4, h5⟩ := invoiceTotals_foldl bs cs items
    { subtotal := 0, totalCGST := 0, totalSGST := 0, totalIGST := 0, totalDiscount := 0 }
  refine ⟨fun item _ => ⟨rfl, rfl, rfl, rfl, rfl⟩, ?_, ?_, ?_, ?_, ?_, rfl⟩ <;>
    simp [invoiceTotals, h1, h2, h3, h4, h5]

/-- C3 witness: the end-to-end scenario with one item quantity 2, rate 500,
discount absent, gstRate 18, intrastate. -/
theorem createInvoice_totals_spec_witness :
    (fun items => ([] : List RawItem) ≠ items ∧
      (invoiceTotals "Delhi" "Delhi" items).subtotal
          = (items.map (fun i => i.quantity * i.rate)).sum)
      [{ productName := "pen", hsnCode := "9608", description := none,
         quantity := 2, unit := "pcs", rate := 500, gstRate := 18,
         discount := none }] := by
  constructor
  · intro h; cases h
  · exact (createInvoice_totals_spec "Delhi" "Delhi" _ (by intro h; cases h)).2.1

/-- The paymentStatus enum of the invoice schema. -/
inductive PaymentStatus where
  | unpaid
  | partiallyPaid
  | paid
  deriving DecidableEq, Repr

/-- invoiceSchema pre-save hook: recompute amountDue = grandTotal - amountPaid
and derive paymentStatus (checking amountPaid = 0 first, then
amountPaid >= grandTotal, else the in-between status). -/
def invoicePreSave (grandTotal amountPaid : ℚ) : ℚ × PaymentStatus :=
  (grandTotal - amountPaid,
   if amountPaid = 0 then PaymentStatus.unpaid
   else if amountPaid ≥ grandTotal then PaymentStatus.paid
   else PaymentStatus.partiallyPaid)

/-- C4 counterexample: the claim demands paymentStatus = paid whenever
amountPaid ≥ grandTotal, but at amountPaid = 0, grandTotal = 0 (a zero-total
invoice with nothing paid) the hook yields unpaid, because the
amountPaid = 0 branch is checked first. -/
theorem invoicePreSave_paid_rule_fails :
    ¬ (∀ grandTotal amountPaid : ℚ,
        amountPaid ≥ grandTotal → (invoicePreSave grandTotal amountPaid).2
          = PaymentStatus.paid) := by
  intro h
  have h0 := h 0 0 le_rfl
  simp [invoicePreSave] at h0

/-- C4 amended: after every save, amountDue = grandTotal - amountPaid, and
paymentStatus is derived as: amountPaid = 0 gives unpaid; nonzero
amountPaid below grandTotal gives the in-between status; nonzero
amountPaid at or above grandTotal gives paid. -/
theorem invoicePreSave_spec (grandTotal amountPaid : ℚ) :
    (invoicePreSave grandTotal amountPaid).1 = grandTotal - amountPaid ∧
    (amountPaid = 0 →
      (invoicePreSave grandTotal amountPaid).2 = PaymentStatus.unpaid) ∧
    (amountPaid ≠ 0 → amountPaid < grandTotal →
      (invoicePreSave grandTotal amountPaid).2 = PaymentStatus.partiallyPaid) ∧
    (amountPaid ≠ 0 → amountPaid ≥ grandTotal →
      (invoicePreSave grandTotal amountPaid).2 = PaymentStatus.paid) := by
  refine ⟨rfl, ?_, ?_, ?_⟩
  · intro h0
    simp [invoicePreSave, h0]
  · intro h0 hlt
    simp [invoicePreSave, h0, not_le.mpr hlt]
  · intro h0 hge
    simp [invoicePreSave, h0, hge]

/-- C4 witness: the amended derivation evaluated at the three concrete
inputs (100,0), (100,40) and (100,100). -/
theorem invoicePreSave_spec_witness :
    (invoicePreSave 100 0).2 = PaymentStatus.unpaid ∧
    (invoicePreSave 100 40).2 = PaymentStatus.partiallyPaid ∧
    (invoicePreSave 100 100).2 = PaymentStatus.paid ∧
    (invoicePreSave 100 40).1 = 60 :=
  ⟨(invoicePreSave_spec 100 0).2.1 rfl,
   (invoicePreSave_spec 100 40).2.2.1 (by norm_num) (by norm_num),
   (invoicePreSave_spec 100 100).2.2.2 (by norm_num) (by norm_num),
   by norm_num [(invoicePreSave_spec 100 40).1]⟩

/-- The invoice fields touched by payment recording. -/
structure InvoicePaymentState where
  grandTotal : ℚ
  amountPaid : ℚ
  amountDue : ℚ
  paymentStatus : PaymentStatus
  deriving DecidableEq, Repr

/-- customerController.recordPayment on a found invoice: reject when the
amount strictly exceeds amountDue (leaving the invoice untouched), otherwise
add the amount to amountPaid and save, which reruns the pre-save hook. -/
def recordPayment (inv : InvoicePaymentState) (amount : ℚ) :
    InvoicePaymentState × Option String :=
  if amount > inv.amountDue then
    (inv, some "Payment amount cannot exceed due amount")
  else
    let newPaid := inv.amountPaid + amount
    let saved := invoicePreSave inv.grandTotal newPaid
    ({ grandTotal := inv.grandTotal, amountPaid := newPaid,
       amountDue := saved.1, paymentStatus := saved.2 }, none)

/-- C6: recordPayment errors exactly when the amount strictly exceeds
amountDue; on error the invoice state is unchanged; on acceptance
amountPaid increases by exactly the payment amount. -/
theorem recordPayment_spec (inv : InvoicePaymentState) (amount : ℚ) :
    ((recordPayment inv amount).2.isSome ↔ amount > inv.amountDue) ∧
    (amount > inv.amountDue → (recordPayment inv amount).1 = inv) ∧
    (¬ amount > inv.amountDue →
      (recordPayment inv amount).1.amountPaid = inv.amountPaid + amount) := by
  by_cases h : amount > inv.amountDue
  · refine ⟨?_, fun _ => ?_, fun hc => absurd h hc⟩ <;> simp [recordPayment, h]
  · refine ⟨?_, fun hc => absurd hc h, fun _ => ?_⟩ <;> simp [recordPayment, h]

/-- C6 witness: on an invoice with 60 due, a payment of 100 is rejected and
the state is unchanged, while a payment of 60 is accepted and raises
amountPaid from 40 to 100. -/
theorem recordPayment_spec_witness :
    (recordPayment
        { grandTotal := 100, amountPaid := 40, amountDue := 60,
          paymentStatus := PaymentStatus.partiallyPaid } 100).1
      = { grandTotal := 100, amountPaid := 40, amountDue := 60,
          paymentStatus := PaymentStatus.partiallyPaid } ∧
    (recordPayment
        { grandTotal := 100, amountPaid := 40, amountDue := 60,
          paymentStatus := PaymentStatus.partiallyPaid } 60).1.amountPaid = 100 := by
  constructor
  · exact (recordPayment_spec
      { grandTotal := 100, amountPaid := 40, amountDue := 60,
        paymentStatus := PaymentStatus.partiallyPaid } 100).2.1 (by norm_num)
  · have h := (recordPayment_spec
      { grandTotal := 100, amountPaid := 40, amountDue := 60,
        paymentStatus := PaymentStatus.partiallyPaid } 60).2.2 (by norm_num)
    rw [h]; norm_num

/-- A local-time instant: a calendar day index and milliseconds elapsed
within that day (a real Date satisfies msOfDay < 86400000). -/
structure Timestamp where
  day : ℤ
  msOfDay : ℕ
  deriving DecidableEq, Repr

/-- Date comparison: earlier day, or same day and not-later millisecond. -/
def tsLe (a b : Timestamp) : Bool :=
  decide (a.day < b.day) || (decide (a.day = b.day) && decide (a.msOfDay ≤ b.msOfDay))

/-- end.setHours(23, 59, 59, 999): move the instant to the last
millisecond of its calendar day. -/
def setEndOfDay (t : Timestamp) : Timestamp :=
  { day := t.day, msOfDay := 86399999 }

/-- A persisted invoice as the report queries see it. -/
structure StoredItem where
  gstRate : ℚ
  taxableAmount : ℚ
  cgst : ℚ
  sgst : ℚ
  igst : ℚ
  totalAmount : ℚ
  deriving DecidableEq, Repr

/-- A persisted invoice document (fields the report controller reads). -/
structure StoredInvoice where
  businessId : ℕ
  isDraft : Bool
  invoiceDate : Timestamp
  invoiceType : InvoiceType
  items : List StoredItem
  deriving DecidableEq, Repr

/-- The Invoice.find condition of the first getSalesRegister variant:
same business, not a draft, invoiceDate between start and the end date
extended by end.setHours(23, 59, 59, 999) to the last instant of its
calendar day (both inclusive). -/
def reportDateFilter (bId : ℕ) (start endDate : Timestamp) (inv : StoredInvoice) : Bool :=
  decide (inv.businessId = bId) && !inv.isDraft
    && tsLe start inv.invoiceDate && tsLe inv.invoiceDate (setEndOfDay endDate)

/-- The Invoice.find condition of the second getSalesRegister variant:
the upper bound is the raw parsed endDate instant, with no end-of-day
extension. -/
def reportDateFilterV2 (bId : ℕ) (start endDate : Timestamp) (inv : StoredInvoice) : Bool :=
  decide (inv.businessId = bId) && !inv.isDraft
    && tsLe start inv.invoiceDate && tsLe inv.invoiceDate endDate

/-- First getSalesRegister variant: selection with the end-of-day bound. -/
def getSalesRegister (bId : ℕ) (start endDate : Timestamp)
    (invoices : List StoredInvoice) : List StoredInvoice :=
  invoices.filter (reportDateFilter bId start endDate)

/-- Second getSalesRegister variant: selection bounded by the raw endDate. -/
def getSalesRegisterV2 (bId : ℕ) (start endDate : Timestamp)
    (invoices : List StoredInvoice) : List StoredInvoice :=
  invoices.filter (reportDateFilterV2 bId start endDate)

/-- C7 counterexample: with the end date parsed at midnight of day 20001,
an invoice of the same business stored at 18:30 of that day lies inside the
range claimed (start to 23:59:59.999 of the end day), yet the second
getSalesRegister variant does not select it, because its query bounds the
range by the raw endDate instant. -/
theorem getSalesRegisterV2_dateRange_fails :
    tsLe { day := 20000, msOfDay := 0 } { day := 20001, msOfDay := 66600000 } = true ∧
    tsLe { day := 20001, msOfDay := 66600000 }
        (setEndOfDay { day := 20001, msOfDay := 0 }) = true ∧
    { businessId := 7, isDraft := false,
      invoiceDate := { day := 20001, msOfDay := 66600000 },
      invoiceType := InvoiceType.B2CS, items := [] } ∉
      getSalesRegisterV2 7 { day := 20000, msOfDay := 0 }
        { day := 20001, msOfDay := 0 }
        [{ businessId := 7, isDraft := false,
           invoiceDate := { day := 20001, msOfDay := 66600000 },
           invoiceType := InvoiceType.B2CS, items := [] }] := by
  refine ⟨?_, ?_, ?_⟩ <;> decide

/-- C7 amended: the first getSalesRegister variant selects exactly the
same-business non-draft invoices whose invoiceDate lies in the inclusive
range from startDate to the last instant (23:59:59.999) of the endDate
calendar day — so there an invoice stored at any time of day on the end
date is selected when the query starts at midnight of a day not after it —
while the second variant bounds the range by the raw endDate instant with
no end-of-day extension. -/
theorem getSalesRegister_variants_spec (bId : ℕ) (start endDate : Timestamp)
    (invoices : List StoredInvoice) (inv : StoredInvoice) :
    (inv ∈ getSalesRegister bId start endDate invoices ↔
      inv ∈ invoices ∧ inv.businessId = bId ∧ inv.isDraft = false ∧
        tsLe start inv.invoiceDate = true ∧
        tsLe inv.invoiceDate (setEndOfDay endDate) = true) ∧
    (inv ∈ getSalesRegisterV2 bId start endDate invoices ↔
      inv ∈ invoices ∧ inv.businessId = bId ∧ inv.isDraft = false ∧
        tsLe start inv.invoiceDate = true ∧
        tsLe inv.invoiceDate endDate = true) ∧
    (inv ∈ invoices → inv.businessId = bId → inv.isDraft = false →
      inv.invoiceDate.day = endDate.day → inv.invoiceDate.msOfDay < 86400000 →
      start.msOfDay = 0 → start.day ≤ endDate.day →
      inv ∈ getSalesRegister bId start endDate invoices) := by
  have hmem : inv ∈ getSalesRegister bId start endDate invoices ↔
      inv ∈ invoices ∧ inv.businessId = bId ∧ inv.isDraft = false ∧
        tsLe start inv.invoiceDate = true ∧
        tsLe inv.invoiceDate (setEndOfDay endDate) = true := by
    unfold getSalesRegister reportDateFilter
    rw [List.mem_filter]
    simp only [Bool.and_eq_true, decide_eq_true_eq, Bool.not_eq_true']
    tauto
  have hmem2 : inv ∈ getSalesRegisterV2 bId start endDate invoices ↔
      inv ∈ invoices ∧ inv.businessId = bId ∧ inv.isDraft = false ∧
        tsLe start inv.invoiceDate = true ∧
        tsLe inv.invoiceDate endDate = true := by
    unfold getSalesRegisterV2 reportDateFilterV2
    rw [List.mem_filter]
    simp only [Bool.and_eq_true, decide_eq_true_eq, Bool.not_eq_true']
    tauto
  refine ⟨hmem, hmem2, ?_⟩
  intro hin hb hd hday hms hs0 hse
  rw [hmem]
  refine ⟨hin, hb, hd, ?_, ?_⟩
  · unfold tsLe
    rcases lt_or_eq_of_le (hday ▸ hse) with h | h
    · simp [h]
    · simp [h, hs0]
  · unfold tsLe setEndOfDay
    simp [hday, Nat.lt_succ_iff.mp hms]

/-- C7 witness: a same-business non-draft invoice stored at 18:30 on the
end date of a two-day range is selected by the first variant. -/
theorem getSalesRegister_variants_spec_witness :
    { businessId := 7, isDraft := false,
      invoiceDate := { day := 20001, msOfDay := 66600000 },
      invoiceType := InvoiceType.B2CS, items := [] } ∈
      getSalesRegister 7 { day := 20000, msOfDay := 0 }
        { day := 20001, msOfDay := 0 }
        [{ businessId := 7, isDraft := false,
           invoiceDate := { day := 20001, msOfDay := 66600000 },
           invoiceType := InvoiceType.B2CS, items := [] }] :=
  (getSalesRegister_variants_spec 7 { day := 20000, msOfDay := 0 }
      { day := 20001, msOfDay := 0 } _ _).2.2
    (by simp) rfl rfl rfl (by norm_num) rfl (by norm_num)

/-- createInvoice invoice-type assignment: B2B whenever customerDetails.gstin
is truthy, otherwise the classifier is called with a null gstin, the business
state, the resolved customer state and the grand total. -/
def controllerInvoiceType (gstin : Option String) (businessState : String)
    (customerState : Option String) (grandTotal : ℚ) : InvoiceType :=
  if jsTruthy gstin then
    InvoiceType.B2B
  else
    determineInvoiceType none businessState
      (resolveCustomerState customerState businessState) grandTotal

/-- C10 counterexample: for the whitespace-only gstin " " the controller
stores B2B (truthy string), while determineInvoiceType trims it to the empty
string and classifies the same intrastate sale as B2CS. -/
theorem controllerInvoiceType_ne_classifier :
    controllerInvoiceType (some " ") "Maharashtra" none 100 = InvoiceType.B2B ∧
    determineInvoiceType (some " ") "Maharashtra"
        (resolveCustomerState none "Maharashtra") 100 = InvoiceType.B2CS ∧
    controllerInvoiceType (some " ") "Maharashtra" none 100 ≠
      determineInvoiceType (some " ") "Maharashtra"
        (resolveCustomerState none "Maharashtra") 100 := by
  refine ⟨rfl, ?_, ?_⟩ <;> decide

/-- C10 amended: the controller's inlined assignment agrees with
determineInvoiceType for every gstin that is absent, empty, or trims to a
non-empty string; only truthy whitespace-only gstins differ. -/
theorem controllerInvoiceType_agrees_spec (gstin : Option String) (businessState : String)
    (customerState : Option String) (grandTotal : ℚ)
    (h : ∀ s, gstin = some s → s ≠ "" → jsTrim s ≠ "") :
    controllerInvoiceType gstin businessState customerState grandTotal =
      determineInvoiceType gstin businessState
        (resolveCustomerState customerState businessState) grandTotal := by
  unfold controllerInvoiceType determineInvoiceType jsTruthy
  cases gstin with
  | none => simp
  | some s =>
    by_cases hs : s = ""
    · subst hs; simp [trim_empty_string]
    · have ht := h s rfl hs
      simp [hs, ht]

/-- C10 witness: agreement evaluated at the concrete registered gstin. -/
theorem controllerInvoiceType_agrees_spec_witness :
    controllerInvoiceType (some "27AAAAA0000A1Z5") "Maharashtra" (some "Karnataka") 300000 =
      determineInvoiceType (some "27AAAAA0000A1Z5") "Maharashtra"
        (resolveCustomerState (some "Karnataka") "Maharashtra") 300000 :=
  controllerInvoiceType_agrees_spec (some "27AAAAA0000A1Z5") "Maharashtra"
    (some "Karnataka") 300000
    (by intro s hs hne; cases hs; decide)

/-- The allocator state: the stored business invoiceCounter, and the
counters of existing invoices for this business+year (numeric segment
of the invoice number), ordered most recently created first. -/
structure AllocState where
  invoiceCounter : ℕ
  issued : List ℕ
  deriving DecidableEq, Repr

/-- invoiceNumberGenerator, step 1: the counter is advanced to the counter
parsed from the latest-created existing invoice when that is ahead of the
stored counter (the query sorts by createdAt descending and takes one). -/
def syncCounter (s : AllocState) : ℕ :=
  match s.issued with
  | [] => s.invoiceCounter
  | latest :: _ => if latest > s.invoiceCounter then latest else s.invoiceCounter

/-- The existence-check loop of the generator: keep incrementing the
counter until the candidate number collides with no existing invoice.
Fuel bounds the search; one step more than the number of existing invoices
always suffices. -/
def firstFreeAux : ℕ → ℕ → List ℕ → ℕ
  | 0, c, _ => c + 1
  | fuel + 1, c, issued =>
    if c + 1 ∈ issued then firstFreeAux fuel (c + 1) issued else c + 1

/-- The first counter above c whose invoice number does not yet exist. -/
def firstFree (c : ℕ) (issued : List ℕ) : ℕ :=
  firstFreeAux (issued.length + 1) c issued

/-- invoiceNumberGenerator.generateInvoiceNumber followed by creation of
the invoice: sync the counter, loop to a collision-free candidate, persist
the counter, and record the new invoice as the most recently created. -/
def generateInvoiceNumber (s : AllocState) : ℕ × AllocState :=
  let n := firstFree (syncCounter s) s.issued
  (n, { invoiceCounter := n, issued := n :: s.issued })

/-- N sequential allocations: the list of returned counters in order. -/
def allocSeq : AllocState → ℕ → List ℕ
  | _, 0 => []
  | s, n + 1 =>
    (generateInvoiceNumber s).1 :: allocSeq (generateInvoiceNumber s).2 n

/-- Adding a strict bound by one tightens the filter strictly when the
bound value itself occurs in the list. -/
theorem length_filter_lt_of_mem_succ (c : ℕ) (l : List ℕ) (h : c + 1 ∈ l) :
    (l.filter (fun x => decide (c + 1 < x))).length
      < (l.filter (fun x => decide (c < x))).length := by
  induction l with
  | nil => cases h
  | cons a t ih =>
    have hmono : ∀ u : List ℕ, (u.filter (fun x => decide (c + 1 < x))).length
        ≤ (u.filter (fun x => decide (c < x))).length := by
      intro u
      induction u with
      | nil => simp
      | cons b v ihv =>
        by_cases hb : c + 1 < b
        · have hb' : c < b := by omega
          simp [List.filter_cons, hb, hb']
          omega
        · by_cases hb' : c < b <;> simp [List.filter_cons, hb, hb'] <;> omega
    rcases List.mem_cons.mp h with ha | ht
    · subst ha
      have h1 : ¬ (c + 1 < c + 1) := by omega
      have h2 : c < c + 1 := by omega
      simp [List.filter_cons, h1, h2]
      exact Nat.lt_succ_of_le (hmono t)
    · have := ih ht
      by_cases hb : c + 1 < a
      · have hb' : c < a := by omega
        simp [List.filter_cons, hb, hb']
        omega
      · by_cases hb' : c < a <;> simp [List.filter_cons, hb, hb'] <;> omega

/-- With enough fuel, the loop returns a counter that is free, strictly
above the starting counter, and is the first such: everything strictly
between is already issued. -/
theorem firstFreeAux_spec (fuel : ℕ) :
    ∀ (c : ℕ) (issued : List ℕ),
      (issued.filter (fun x => decide (c < x))).length < fuel →
      firstFreeAux fuel c issued ∉ issued ∧
      c < firstFreeAux fuel c issued ∧
      ∀ m, c < m → m < firstFreeAux fuel c issued → m ∈ issued := by
  induction fuel with
  | zero => intro c issued h; omega
  | succ fuel ih =>
    intro c issued h
    by_cases hc : c + 1 ∈ issued
    · have hlt := length_filter_lt_of_mem_succ c issued hc
      have hfuel : (issued.filter (fun x => decide (c + 1 < x))).length < fuel := by
        omega
      obtain ⟨h1, h2, h3⟩ := ih (c + 1) issued hfuel
      rw [firstFreeAux, if_pos hc]
      refine ⟨h1, by omega, fun m hm1 hm2 => ?_⟩
      rcases Nat.lt_or_ge m (c + 2) with hm | hm
      · have : m = c + 1 := by omega
        subst this; exact hc
      · exact h3 m (by omega) hm2
    · rw [firstFreeAux, if_neg hc]
      refine ⟨hc, by omega, ?_⟩
      intro m hm1 hm2
      exact absurd hm1 (by omega)

/-- firstFree returns the least free counter above its argument. -/
theorem firstFree_spec (c : ℕ) (issued : List ℕ) :
    firstFree c issued ∉ issued ∧ c < firstFree c issued ∧
      ∀ m, c < m → m < firstFree c issued → m ∈ issued :=
  firstFreeAux_spec (issued.length + 1) c issued
    (Nat.lt_succ_of_le (List.length_filter_le _ issued))

/-- The synced counter never decreases below the stored counter. -/
theorem syncCounter_ge (s : AllocState) : s.invoiceCounter ≤ syncCounter s := by
  unfold syncCounter
  cases s.issued with
  | nil => exact le_rfl
  | cons latest rest =>
    by_cases h : latest > s.invoiceCounter <;> simp [h] <;> omega

/-- Each allocation returns a counter above the stored one, stores it back,
and records it as latest issued. -/
theorem generateInvoiceNumber_step (s : AllocState) :
    s.invoiceCounter < (generateInvoiceNumber s).1 ∧
    (generateInvoiceNumber s).2.invoiceCounter = (generateInvoiceNumber s).1 ∧
    (generateInvoiceNumber s).2.issued = (generateInvoiceNumber s).1 :: s.issued := by
  refine ⟨?_, rfl, rfl⟩
  have h1 := (firstFree_spec (syncCounter s) s.issued).2.1
  have h2 := syncCounter_ge s
  show s.invoiceCounter < firstFree (syncCounter s) s.issued
  omega

/-- Every number produced in a run of sequential allocations exceeds the
starting stored counter, and the run is strictly increasing. -/
theorem allocSeq_chain (n : ℕ) :
    ∀ s : AllocState,
      (∀ y ∈ allocSeq s n, s.invoiceCounter < y) ∧
      List.Chain' (fun a b => a < b) (allocSeq s n) := by
  induction n with
  | zero => intro s; simp [allocSeq]
  | succ n ih =>
    intro s
    obtain ⟨hstep, hcnt, _⟩ := generateInvoiceNumber_step s
    obtain ⟨hall, hchain⟩ := ih (generateInvoiceNumber s).2
    rw [hcnt] at hall
    constructor
    · intro y hy
      rw [allocSeq] at hy
      rcases List.mem_cons.mp hy with h | h
      · omega
      · have := hall y h; omega
    · rw [allocSeq, List.chain'_cons']
      refine ⟨fun y hy => ?_, hchain⟩
      have := hall y (List.mem_of_mem_head? hy)
      omega

/-- When no issued counter is ahead of the stored counter, N sequential
allocations return exactly the consecutive counters following it. -/
theorem allocSeq_consecutive (n : ℕ) :
    ∀ s : AllocState, (∀ x ∈ s.issued, x ≤ s.invoiceCounter) →
      allocSeq s n = List.range' (s.invoiceCounter + 1) n := by
  induction n with
  | zero => intro s _; simp [allocSeq]
  | succ n ih =>
    intro s hbound
    have hsync : syncCounter s = s.invoiceCounter := by
      unfold syncCounter
      cases hi : s.issued with
      | nil => rfl
      | cons latest rest =>
        have := hbound latest (hi ▸ List.mem_cons_self latest rest)
        simp [show ¬ latest > s.invoiceCounter by omega]
    have hfree : firstFree s.invoiceCounter s.issued = s.invoiceCounter + 1 := by
      unfold firstFree
      rw [firstFreeAux, if_neg]
      intro hmem
      have := hbound _ hmem
      omega
    have hgen : generateInvoiceNumber s =
        (s.invoiceCounter + 1,
         { invoiceCounter := s.invoiceCounter + 1,
           issued := (s.invoiceCounter + 1) :: s.issued }) := by
      unfold generateInvoiceNumber
      rw [hsync, hfree]
    have hbound' : ∀ x ∈ ((s.invoiceCounter + 1) :: s.issued : List ℕ),
        x ≤ s.invoiceCounter + 1 := by
      intro x hx
      rcases List.mem_cons.mp hx with h | h
      · omega
      · have := hbound x h; omega
    rw [allocSeq, hgen, List.range'_succ]
    exact congrArg _ (ih _ hbound')

/-- C5 counterexample: with stored counter 0 and issued counters [3, 5]
(counter 3 created after counter 5, e.g. by manual edits), the highest
already-used counter is 5, yet the allocator syncs to the latest-created 3
and returns 4, persisting 4 < 5; two sequential allocations then return
[4, 6] — strictly increasing but skipping 5, i.e. with a gap. -/
theorem generateInvoiceNumber_claim_fails :
    (generateInvoiceNumber { invoiceCounter := 0, issued := [3, 5] }).1 = 4 ∧
    (generateInvoiceNumber
        { invoiceCounter := 0, issued := [3, 5] }).2.invoiceCounter = 4 ∧
    5 ∈ ({ invoiceCounter := 0, issued := [3, 5] } : AllocState).issued ∧
    allocSeq { invoiceCounter := 0, issued := [3, 5] } 2 = [4, 6] ∧
    5 ∉ allocSeq { invoiceCounter := 0, issued := [3, 5] } 2 := by
  refine ⟨?_, ?_, ?_, ?_, ?_⟩ <;> decide

/-- C5 amended: the allocator advances the stored counter to the counter of
the most recently created invoice for this business+prefix+year when that is
ahead (not to the maximum), then returns the first candidate above the
synced counter that collides with no existing number; N sequential
allocations are always distinct and strictly increasing, and they are
consecutive with no gaps when no already-issued counter is ahead of the
stored counter. -/
theorem generateInvoiceNumber_spec (s : AllocState) (n : ℕ) :
    (generateInvoiceNumber s).1 ∉ s.issued ∧
    syncCounter s < (generateInvoiceNumber s).1 ∧
    (∀ m, syncCounter s < m → m < (generateInvoiceNumber s).1 → m ∈ s.issued) ∧
    (generateInvoiceNumber s).2.invoiceCounter = (generateInvoiceNumber s).1 ∧
    List.Chain' (fun a b => a < b) (allocSeq s n) ∧
    ((∀ x ∈ s.issued, x ≤ s.invoiceCounter) →
      allocSeq s n = List.range' (s.invoiceCounter + 1) n) := by
  obtain ⟨h1, h2, h3⟩ := firstFree_spec (syncCounter s) s.issued
  exact ⟨h1, h2, h3, rfl, (allocSeq_chain n s).2, allocSeq_consecutive n s⟩

/-- C5 witness: from stored counter 7 with issued counters [7, 6, 5], three
sequential allocations return exactly [8, 9, 10]. -/
theorem generateInvoiceNumber_spec_witness :
    allocSeq { invoiceCounter := 7, issued := [7, 6, 5] } 3 = [8, 9, 10] := by
  have h := (generateInvoiceNumber_spec
    { invoiceCounter := 7, issued := [7, 6, 5] } 3).2.2.2.2.2 (by decide)
  rw [h]
  decide

/-- A per-rate aggregation row of the GSTR-1 B2CS bucket. -/
structure B2CSRow where
  gstRate : ℚ
  taxableAmount : ℚ
  cgst : ℚ
  sgst : ℚ
  totalAmount : ℚ
  count : ℕ
  deriving DecidableEq, Repr

/-- A per-rate aggregation row of the GSTR-1 B2CL bucket. -/
structure B2CLRow where
  gstRate : ℚ
  taxableAmount : ℚ
  igst : ℚ
  totalAmount : ℚ
  count : ℕ
  deriving DecidableEq, Repr

/-- The zero row created when a rate key is first seen in the B2CS bucket. -/
def b2csInit (r : ℚ) : B2CSRow :=
  { gstRate := r, taxableAmount := 0, cgst := 0, sgst := 0, totalAmount := 0, count := 0 }

/-- The zero row created when a rate key is first seen in the B2CL bucket. -/
def b2clInit (r : ℚ) : B2CLRow :=
  { gstRate := r, taxableAmount := 0, igst := 0, totalAmount := 0, count := 0 }

/-- Add one line item's contribution to a B2CS rate row. -/
def b2csAdd (row : B2CSRow) (item : StoredItem) : B2CSRow :=
  { row with
    taxableAmount := row.taxableAmount + item.taxableAmount
    cgst := row.cgst + item.cgst
    sgst := row.sgst + item.sgst
    totalAmount := row.totalAmount + item.totalAmount
    count := row.count + 1 }

/-- Add one line item's contribution to a B2CL rate row. -/
def b2clAdd (row : B2CLRow) (item : StoredItem) : B2CLRow :=
  { row with
    taxableAmount := row.taxableAmount + item.taxableAmount
    igst := row.igst + item.igst
    totalAmount := row.totalAmount + item.totalAmount
    count := row.count + 1 }

/-- Update the keyed B2CS accumulator object with one item, creating the
rate key on first sight (keys keep insertion order). -/
def b2csUpsert : List B2CSRow → StoredItem → List B2CSRow
  | [], item => [b2csAdd (b2csInit item.gstRate) item]
  | row :: rest, item =>
    if row.gstRate = item.gstRate then b2csAdd row item :: rest
    else row :: b2csUpsert rest item

/-- Update the keyed B2CL accumulator object with one item. -/
def b2clUpsert : List B2CLRow → StoredItem → List B2CLRow
  | [], item => [b2clAdd (b2clInit item.gstRate) item]
  | row :: rest, item =>
    if row.gstRate = item.gstRate then b2clAdd row item :: rest
    else row :: b2clUpsert rest item

/-- getGSTR1Report: the B2B bucket passes the B2B invoices through. -/
def gstr1B2B (invoices : List StoredInvoice) : List StoredInvoice :=
  invoices.filter (fun inv => decide (inv.invoiceType = InvoiceType.B2B))

/-- getGSTR1Report: the invoices feeding the B2CS bucket. -/
def gstr1B2CSInvoices (invoices : List StoredInvoice) : List StoredInvoice :=
  invoices.filter (fun inv => decide (inv.invoiceType = InvoiceType.B2CS))

/-- getGSTR1Report: the invoices feeding the B2CL bucket. -/
def gstr1B2CLInvoices (invoices : List StoredInvoice) : List StoredInvoice :=
  invoices.filter (fun inv => decide (inv.invoiceType = InvoiceType.B2CL))

/-- getGSTR1Report: per-rate aggregation of all line items of B2CS invoices
(nested forEach over invoices and items). -/
def gstr1B2CS (invoices : List StoredInvoice) : List B2CSRow :=
  (gstr1B2CSInvoices invoices).foldl
    (fun rows inv => inv.items.foldl b2csUpsert rows) []

/-- First getGSTR1Report variant: per-rate aggregation of all line items
of B2CL invoices. -/
def gstr1B2CL (invoices : List StoredInvoice) : List B2CLRow :=
  (gstr1B2CLInvoices invoices).foldl
    (fun rows inv => inv.items.foldl b2clUpsert rows) []

/-- Second getGSTR1Report variant: the B2CL bucket returned in the payload
is the filtered invoice list itself, passed through ungrouped with no
per-rate aggregation. -/
def gstr1B2CLBucketV2 (invoices : List StoredInvoice) : List StoredInvoice :=
  invoices.filter (fun inv => decide (inv.invoiceType = InvoiceType.B2CL))

/-- Lookup of a rate key in the B2CS accumulator. -/
def b2csFind (r : ℚ) (rows : List B2CSRow) : Option B2CSRow :=
  rows.find? (fun row => decide (row.gstRate = r))

/-- Lookup of a rate key in the B2CL accumulator. -/
def b2clFind (r : ℚ) (rows : List B2CLRow) : Option B2CLRow :=
  rows.find? (fun row => decide (row.gstRate = r))

/-- The line items of the B2CS invoices, in traversal order. -/
def b2csItems (invoices : List StoredInvoice) : List StoredItem :=
  ((gstr1B2CSInvoices invoices).map (fun inv => inv.items)).flatten

/-- The line items of the B2CL invoices, in traversal order. -/
def b2clItems (invoices : List StoredInvoice) : List StoredItem :=
  ((gstr1B2CLInvoices invoices).map (fun inv => inv.items)).flatten

/-- One upsert step, seen through a rate lookup. -/
theorem b2csFind_upsert (rows : List B2CSRow) (item : StoredItem) (r : ℚ) :
    b2csFind r (b2csUpsert rows item) =
      if item.gstRate = r then
        some (b2csAdd ((b2csFind r rows).getD (b2csInit r)) item)
      else b2csFind r rows := by
  induction rows with
  | nil =>
    by_cases hir : item.gstRate = r
    · simp [b2csUpsert, b2csFind, b2csAdd, b2csInit, hir]
    · simp [b2csUpsert, b2csFind, b2csAdd, b2csInit, hir]
  | cons row rest ih =>
    by_cases hrow : row.gstRate = item.gstRate
    · rw [show b2csUpsert (row :: rest) item = b2csAdd row item :: rest from by
        simp [b2csUpsert, hrow]]
      by_cases hr : row.gstRate = r
      · have hir : item.gstRate = r := by rw [← hrow]; exact hr
        simp [b2csFind, List.find?_cons, b2csAdd, hr, hir]
      · have hir : ¬ item.gstRate = r := by rw [← hrow]; exact hr
        simp [b2csFind, List.find?_cons, b2csAdd, hr, hir]
    · rw [show b2csUpsert (row :: rest) item = row :: b2csUpsert rest item from by
        simp [b2csUpsert, hrow]]
      by_cases hr : row.gstRate = r
      · have hir : ¬ item.gstRate = r := fun h => hrow (by rw [hr, h])
        simp [b2csFind, List.find?_cons, hr, hir]
      · have hL : b2csFind r (row :: b2csUpsert rest item)
            = b2csFind r (b2csUpsert rest item) := by
          simp [b2csFind, List.find?_cons, hr]
        have hR : b2csFind r (row :: rest) = b2csFind r rest := by
          simp [b2csFind, List.find?_cons, hr]
        rw [hL, hR]
        exact ih

/-- One B2CL upsert step, seen through a rate lookup. -/
theorem b2clFind_upsert (rows : List B2CLRow) (item : StoredItem) (r : ℚ) :
    b2clFind r (b2clUpsert rows item) =
      if item.gstRate = r then
        some (b2clAdd ((b2clFind r rows).getD (b2clInit r)) item)
      else b2clFind r rows := by
  induction rows with
  | nil =>
    by_cases hir : item.gstRate = r
    · simp [b2clUpsert, b2clFind, b2clAdd, b2clInit, hir]
    · simp [b2clUpsert, b2clFind, b2clAdd, b2clInit, hir]
  | cons row rest ih =>
    by_cases hrow : row.gstRate = item.gstRate
    · rw [show b2clUpsert (row :: rest) item = b2clAdd row item :: rest from by
        simp [b2clUpsert, hrow]]
      by_cases hr : row.gstRate = r
      · have hir : item.gstRate = r := by rw [← hrow]; exact hr
        simp [b2clFind, List.find?_cons, b2clAdd, hr, hir]
      · have hir : ¬ item.gstRate = r := by rw [← hrow]; exact hr
        simp [b2clFind, List.find?_cons, b2clAdd, hr, hir]
    · rw [show b2clUpsert (row :: rest) item = row :: b2clUpsert rest item from by
        simp [b2clUpsert, hrow]]
      by_cases hr : row.gstRate = r
      · have hir : ¬ item.gstRate = r := fun h => hrow (by rw [hr, h])
        simp [b2clFind, List.find?_cons, hr, hir]
      · have hL : b2clFind r (row :: b2clUpsert rest item)
            = b2clFind r (b2clUpsert rest item) := by
          simp [b2clFind, List.find?_cons, hr]
        have hR : b2clFind r (row :: rest) = b2clFind r rest := by
          simp [b2clFind, List.find?_cons, hr]
        rw [hL, hR]
        exact ih

/-- Folding the B2CS upsert over an item list, seen through a rate lookup:
the row for rate r absorbs exactly the items whose gstRate is r. -/
theorem b2csFind_foldl (items : List StoredItem) (rows : List B2CSRow) (r : ℚ) :
    b2csFind r (items.foldl b2csUpsert rows) =
      match b2csFind r rows with
      | some row =>
          some ((items.filter (fun it => decide (it.gstRate = r))).foldl b2csAdd row)
      | none =>
          if (items.filter (fun it => decide (it.gstRate = r))) = [] then none
          else some ((items.filter (fun it => decide (it.gstRate = r))).foldl
            b2csAdd (b2csInit r)) := by
  induction items generalizing rows with
  | nil =>
    cases hf : b2csFind r rows <;> simp [hf]
  | cons it tl ih =>
    rw [List.foldl_cons, ih (b2csUpsert rows it), b2csFind_upsert]
    by_cases hit : it.gstRate = r
    · rw [if_pos hit]
      cases hf : b2csFind r rows with
      | some row => simp [hf, List.filter_cons, hit]
      | none => simp [hf, List.filter_cons, hit]
    · rw [if_neg hit]
      cases hf : b2csFind r rows with
      | some row => simp [hf, List.filter_cons, hit]
      | none => simp [hf, List.filter_cons, hit]

/-- Folding the B2CL upsert over an item list, seen through a rate lookup. -/
theorem b2clFind_foldl (items : List StoredItem) (rows : List B2CLRow) (r : ℚ) :
    b2clFind r (items.foldl b2clUpsert rows) =
      match b2clFind r rows with
      | some row =>
          some ((items.filter (fun it => decide (it.gstRate = r))).foldl b2clAdd row)
      | none =>
          if (items.filter (fun it => decide (it.gstRate = r))) = [] then none
          else some ((items.filter (fun it => decide (it.gstRate = r))).foldl
            b2clAdd (b2clInit r)) := by
  induction items generalizing rows with
  | nil =>
    cases hf : b2clFind r rows <;> simp [hf]
  | cons it tl ih =>
    rw [List.foldl_cons, ih (b2clUpsert rows it), b2clFind_upsert]
    by_cases hit : it.gstRate = r
    · rw [if_pos hit]
      cases hf : b2clFind r rows with
      | some row => simp [hf, List.filter_cons, hit]
      | none => simp [hf, List.filter_cons, hit]
    · rw [if_neg hit]
      cases hf : b2clFind r rows with
      | some row => simp [hf, List.filter_cons, hit]
      | none => simp [hf, List.filter_cons, hit]

/-- Folding b2csAdd sums every component and counts the items. -/
theorem b2csAdd_foldl (items : List StoredItem) (row : B2CSRow) :
    ((items.foldl b2csAdd row).gstRate = row.gstRate) ∧
    ((items.foldl b2csAdd row).taxableAmount
      = row.taxableAmount + (items.map (fun it => it.taxableAmount)).sum) ∧
    ((items.foldl b2csAdd row).cgst = row.cgst + (items.map (fun it => it.cgst)).sum) ∧
    ((items.foldl b2csAdd row).sgst = row.sgst + (items.map (fun it => it.sgst)).sum) ∧
    ((items.foldl b2csAdd row).totalAmount
      = row.totalAmount + (items.map (fun it => it.totalAmount)).sum) ∧
    ((items.foldl b2csAdd row).count = row.count + items.length) := by
  induction items generalizing row with
  | nil => simp
  | cons it tl ih =>
    obtain ⟨h0, h1, h2, h3, h4, h5⟩ := ih (b2csAdd row it)
    refine ⟨?_, ?_, ?_, ?_, ?_, ?_⟩ <;>
      simp only [List.foldl_cons, List.map_cons, List.sum_cons, List.length_cons,
        h0, h1, h2, h3, h4, h5] <;>
      simp [b2csAdd] <;> ring

/-- Folding b2clAdd sums every component and counts the items. -/
theorem b2clAdd_foldl (items : List StoredItem) (row : B2CLRow) :
    ((items.foldl b2clAdd row).gstRate = row.gstRate) ∧
    ((items.foldl b2clAdd row).taxableAmount
      = row.taxableAmount + (items.map (fun it => it.taxableAmount)).sum) ∧
    ((items.foldl b2clAdd row).igst = row.igst + (items.map (fun it => it.igst)).sum) ∧
    ((items.foldl b2clAdd row).totalAmount
      = row.totalAmount + (items.map (fun it => it.totalAmount)).sum) ∧
    ((items.foldl b2clAdd row).count = row.count + items.length) := by
  induction items generalizing row with
  | nil => simp
  | cons it tl ih =>
    obtain ⟨h0, h1, h2, h3, h4⟩ := ih (b2clAdd row it)
    refine ⟨?_, ?_, ?_, ?_, ?_⟩ <;>
      simp only [List.foldl_cons, List.map_cons, List.sum_cons, List.length_cons,
        h0, h1, h2, h3, h4] <;>
      simp [b2clAdd] <;> ring

/-- The nested forEach over invoices and items equals one pass over the
flattened item list. -/
theorem gstr1B2CS_eq_flatten (invoices : List StoredInvoice) :
    gstr1B2CS invoices = (b2csItems invoices).foldl b2csUpsert [] := by
  unfold gstr1B2CS b2csItems
  rw [List.foldl_flatten]
  rw [List.foldl_map]

/-- The nested forEach over B2CL invoices equals one flattened pass. -/
theorem gstr1B2CL_eq_flatten (invoices : List StoredInvoice) :
    gstr1B2CL invoices = (b2clItems invoices).foldl b2clUpsert [] := by
  unfold gstr1B2CL b2clItems
  rw [List.foldl_flatten]
  rw [List.foldl_map]

/-- Every invoice lands in exactly one of the three type filters, so the
bucket sizes add up to the whole selection. -/
theorem gstr1_partition_length (invoices : List StoredInvoice) :
    (gstr1B2B invoices).length + (gstr1B2CSInvoices invoices).length
      + (gstr1B2CLInvoices invoices).length = invoices.length := by
  unfold gstr1B2B gstr1B2CSInvoices gstr1B2CLInvoices
  induction invoices with
  | nil => simp
  | cons inv tl ih =>
    cases htype : inv.invoiceType <;>
      simp [List.filter_cons, htype] <;> omega

/-- C8 counterexample: two B2CL invoices, each carrying a single rate-18
line item, would merge into one aggregated rate-18 row under per-rate
aggregation (the first variant produces exactly one row), but the second
getGSTR1Report variant returns both invoices in its b2cl bucket unchanged
and ungrouped — the bucket is not aggregated per distinct GST rate. -/
theorem getGSTR1ReportV2_b2cl_not_aggregated :
    gstr1B2CLBucketV2
        [{ businessId := 1, isDraft := false, invoiceDate := { day := 1, msOfDay := 0 },
           invoiceType := InvoiceType.B2CL,
           items := [{ gstRate := 18, taxableAmount := 300000, cgst := 0, sgst := 0,
                       igst := 54000, totalAmount := 354000 }] },
         { businessId := 1, isDraft := false, invoiceDate := { day := 2, msOfDay := 0 },
           invoiceType := InvoiceType.B2CL,
           items := [{ gstRate := 18, taxableAmount := 400000, cgst := 0, sgst := 0,
                       igst := 72000, totalAmount := 472000 }] }]
      = [{ businessId := 1, isDraft := false, invoiceDate := { day := 1, msOfDay := 0 },
           invoiceType := InvoiceType.B2CL,
           items := [{ gstRate := 18, taxableAmount := 300000, cgst := 0, sgst := 0,
                       igst := 54000, totalAmount := 354000 }] },
         { businessId := 1, isDraft := false, invoiceDate := { day := 2, msOfDay := 0 },
           invoiceType := InvoiceType.B2CL,
           items := [{ gstRate := 18, taxableAmount := 400000, cgst := 0, sgst := 0,
                       igst := 72000, totalAmount := 472000 }] }] ∧
    (gstr1B2CL
        [{ businessId := 1, isDraft := false, invoiceDate := { day := 1, msOfDay := 0 },
           invoiceType := InvoiceType.B2CL,
           items := [{ gstRate := 18, taxableAmount := 300000, cgst := 0, sgst := 0,
                       igst := 54000, totalAmount := 354000 }] },
         { businessId := 1, isDraft := false, invoiceDate := { day := 2, msOfDay := 0 },
           invoiceType := InvoiceType.B2CL,
           items := [{ gstRate := 18, taxableAmount := 400000, cgst := 0, sgst := 0,
                       igst := 72000, totalAmount := 472000 }] }]).length = 1 ∧
    (gstr1B2CLBucketV2
        [{ businessId := 1, isDraft := false, invoiceDate := { day := 1, msOfDay := 0 },
           invoiceType := InvoiceType.B2CL,
           items := [{ gstRate := 18, taxableAmount := 300000, cgst := 0, sgst := 0,
                       igst := 54000, totalAmount := 354000 }] },
         { businessId := 1, isDraft := false, invoiceDate := { day := 2, msOfDay := 0 },
           invoiceType := InvoiceType.B2CL,
           items := [{ gstRate := 18, taxableAmount := 400000, cgst := 0, sgst := 0,
                       igst := 72000, totalAmount := 472000 }] }]).length = 2 := by
  refine ⟨?_, ?_, ?_⟩
  · simp [gstr1B2CLBucketV2, List.filter]
  · simp only [gstr1B2CL, gstr1B2CLInvoices, List.filter, List.foldl,
      b2clUpsert, b2clAdd, b2clInit]
    norm_num
  · simp [gstr1B2CLBucketV2, List.filter]

/-- C8 amended: the GSTR-1 report partitions the selected invoices into three
type buckets (disjoint, covering all of them); the B2CS bucket carries one
row per distinct GST rate, summing taxableAmount, cgst, sgst and
totalAmount over all line items of qualifying invoices at that rate, with
count the number of contributing line items; the B2CL bucket is aggregated
per rate likewise (taxableAmount, igst, totalAmount) only in the first
getGSTR1Report variant, while the second variant passes the B2CL invoices
through ungrouped. -/
theorem getGSTR1Report_variants_spec (invoices : List StoredInvoice) (r : ℚ) :
    (gstr1B2B invoices).length + (gstr1B2CSInvoices invoices).length
        + (gstr1B2CLInvoices invoices).length = invoices.length ∧
    (∀ inv ∈ invoices,
      (inv ∈ gstr1B2B invoices ↔ inv.invoiceType = InvoiceType.B2B) ∧
      (inv ∈ gstr1B2CSInvoices invoices ↔ inv.invoiceType = InvoiceType.B2CS) ∧
      (inv ∈ gstr1B2CLInvoices invoices ↔ inv.invoiceType = InvoiceType.B2CL)) ∧
    (b2csFind r (gstr1B2CS invoices) = none ↔
      (b2csItems invoices).filter (fun it => decide (it.gstRate = r)) = []) ∧
    (∀ row, b2csFind r (gstr1B2CS invoices) = some row →
      row.gstRate = r ∧
      row.taxableAmount = (((b2csItems invoices).filter
          (fun it => decide (it.gstRate = r))).map (fun it => it.taxableAmount)).sum ∧
      row.cgst = (((b2csItems invoices).filter
          (fun it => decide (it.gstRate = r))).map (fun it => it.cgst)).sum ∧
      row.sgst = (((b2csItems invoices).filter
          (fun it => decide (it.gstRate = r))).map (fun it => it.sgst)).sum ∧
      row.totalAmount = (((b2csItems invoices).filter
          (fun it => decide (it.gstRate = r))).map (fun it => it.totalAmount)).sum ∧
      row.count = ((b2csItems invoices).filter
          (fun it => decide (it.gstRate = r))).length) ∧
    (b2clFind r (gstr1B2CL invoices) = none ↔
      (b2clItems invoices).filter (fun it => decide (it.gstRate = r)) = []) ∧
    (∀ row, b2clFind r (gstr1B2CL invoices) = some row →
      row.gstRate = r ∧
      row.taxableAmount = (((b2clItems invoices).filter
          (fun it => decide (it.gstRate = r))).map (fun it => it.taxableAmount)).sum ∧
      row.igst = (((b2clItems invoices).filter
          (fun it => decide (it.gstRate = r))).map (fun it => it.igst)).sum ∧
      row.totalAmount = (((b2clItems invoices).filter
          (fun it => decide (it.gstRate = r))).map (fun it => it.totalAmount)).sum ∧
      row.count = ((b2clItems invoices).filter
          (fun it => decide (it.gstRate = r))).length) ∧
    (∀ inv, inv ∈ gstr1B2CLBucketV2 invoices ↔
      inv ∈ invoices ∧ inv.invoiceType = InvoiceType.B2CL) := by
  have hcsFind : b2csFind r (gstr1B2CS invoices) =
      if ((b2csItems invoices).filter (fun it => decide (it.gstRate = r))) = [] then none
      else some (((b2csItems invoices).filter (fun it => decide (it.gstRate = r))).foldl
        b2csAdd (b2csInit r)) := by
    rw [gstr1B2CS_eq_flatten, b2csFind_foldl]
    rfl
  have hclFind : b2clFind r (gstr1B2CL invoices) =
      if ((b2clItems invoices).filter (fun it => decide (it.gstRate = r))) = [] then none
      else some (((b2clItems invoices).filter (fun it => decide (it.gstRate = r))).foldl
        b2clAdd (b2clInit r)) := by
    rw [gstr1B2CL_eq_flatten, b2clFind_foldl]
    rfl
  refine ⟨gstr1_partition_length invoices, ?_, ?_, ?_, ?_, ?_, ?_⟩
  · intro inv hin
    unfold gstr1B2B gstr1B2CSInvoices gstr1B2CLInvoices
    refine ⟨?_, ?_, ?_⟩ <;> rw [List.mem_filter] <;> simp [hin]
  · rw [hcsFind]
    by_cases hemp : ((b2csItems invoices).filter (fun it => decide (it.gstRate = r))) = []
      <;> simp [hemp]
  · intro row hrow
    rw [hcsFind] at hrow
    by_cases hemp : ((b2csItems invoices).filter (fun it => decide (it.gstRate = r))) = []
    · rw [if_pos hemp] at hrow; cases hrow
    · rw [if_neg hemp] at hrow
      obtain ⟨h0, h1, h2, h3, h4, h5⟩ := b2csAdd_foldl
        ((b2csItems invoices).filter (fun it => decide (it.gstRate = r))) (b2csInit r)
      cases hrow
      exact ⟨h0, by rw [h1]; simp [b2csInit], by rw [h2]; simp [b2csInit],
        by rw [h3]; simp [b2csInit], by rw [h4]; simp [b2csInit],
        by rw [h5]; simp [b2csInit]⟩
  · rw [hclFind]
    by_cases hemp : ((b2clItems invoices).filter (fun it => decide (it.gstRate = r))) = []
      <;> simp [hemp]
  · intro row hrow
    rw [hclFind] at hrow
    by_cases hemp : ((b2clItems invoices).filter (fun it => decide (it.gstRate = r))) = []
    · rw [if_pos hemp] at hrow; cases hrow
    · rw [if_neg hemp] at hrow
      obtain ⟨h0, h1, h2, h3, h4⟩ := b2clAdd_foldl
        ((b2clItems invoices).filter (fun it => decide (it.gstRate = r))) (b2clInit r)
      cases hrow
      exact ⟨h0, by rw [h1]; simp [b2clInit], by rw [h2]; simp [b2clInit],
        by rw [h3]; simp [b2clInit], by rw [h4]; simp [b2clInit]⟩
  · intro inv
    unfold gstr1B2CLBucketV2
    rw [List.mem_filter]
    simp

/-- C8 witness: one B2CS invoice with two rate-18 items of taxable amounts
100 and 200 yields a single rate-18 row with taxableAmount 300, cgst 27,
count 2. -/
theorem getGSTR1Report_variants_spec_witness :
    b2csFind 18 (gstr1B2CS
        [{ businessId := 1, isDraft := false, invoiceDate := { day := 1, msOfDay := 0 },
           invoiceType := InvoiceType.B2CS,
           items := [{ gstRate := 18, taxableAmount := 100, cgst := 9, sgst := 9,
                       igst := 0, totalAmount := 118 },
                     { gstRate := 18, taxableAmount := 200, cgst := 18, sgst := 18,
                       igst := 0, totalAmount := 236 }] }])
      = some { gstRate := 18, taxableAmount := 300, cgst := 27, sgst := 27,
               totalAmount := 354, count := 2 } ∧
    ({ gstRate := 18, taxableAmount := 300, cgst := 27, sgst := 27,
       totalAmount := 354, count := 2 } : B2CSRow).count
      = ((b2csItems
        [{ businessId := 1, isDraft := false, invoiceDate := { day := 1, msOfDay := 0 },
           invoiceType := InvoiceType.B2CS,
           items := [{ gstRate := 18, taxableAmount := 100, cgst := 9, sgst := 9,
                       igst := 0, totalAmount := 118 },
                     { gstRate := 18, taxableAmount := 200, cgst := 18, sgst := 18,
                       igst := 0, totalAmount := 236 }] }]).filter
          (fun it => decide (it.gstRate = 18))).length := by
  have hfind : b2csFind 18 (gstr1B2CS
      [{ businessId := 1, isDraft := false, invoiceDate := { day := 1, msOfDay := 0 },
         invoiceType := InvoiceType.B2CS,
         items := [{ gstRate := 18, taxableAmount := 100, cgst := 9, sgst := 9,
                     igst := 0, totalAmount := 118 },
                   { gstRate := 18, taxableAmount := 200, cgst := 18, sgst := 18,
                     igst := 0, totalAmount := 236 }] }])
      = some { gstRate := 18, taxableAmount := 300, cgst := 27, sgst := 27,
               totalAmount := 354, count := 2 } := by
    simp only [gstr1B2CS, gstr1B2CSInvoices, List.filter, List.foldl,
      b2csUpsert, b2csAdd, b2csInit, b2csFind, List.find?]
    norm_num
  refine ⟨hfind, ?_⟩
  exact ((getGSTR1Report_variants_spec _ 18).2.2.2.1 _ hfind).2.2.2.2.2
